import Mathlib

/-
Shallow embedding of the TrendSnap client-side application.

Embedded here, translated from the TypeScript sources:
 * the Gemini image-generation service wrapper (custom error types, the
   retry loop `callGeminiWithRetry`, `processGeminiResponse`,
   `generateImageFromPrompt`, `generateDecadeImage`, `extractDecade`,
   `getFallbackPrompt`);
 * the URL normalizers `getYouTubeEmbedUrl` and `convertGoogleDriveUrl`
   (JavaScript regex searches are modelled as explicit left-to-right
   scans over the character list: a JS unanchored `match` tries each
   start position in order, and at a given position an alternation
   tries its alternatives in order; a greedy final `[...]+` / `[...]{25,}`
   class with nothing after it captures the maximal run);
 * the admin CRUD list updates (`handleUpdateImage`, `handleConfirmDelete`),
   the initial data fetch fallback (`fetchData`), the login submit handler
   and the API `handleResponse` helper.

External effects (the generateContent network call, fetch, timers) are
modelled as explicit outcome parameters; `console.*` logging and React
state setters are modelled as the returned values/states.
-/

/-! ## String helpers -/

/-- Literal prefix test: does `lit` occur verbatim at the head of `cs`?
Equivalent to `List.isPrefixOf`, written so that it reduces whenever `lit`
and the compared portion of `cs` are concrete. -/
def litMatch (lit cs : List Char) : Bool :=
  match lit with
  | [] => true
  | a :: as =>
    match cs with
    | [] => false
    | b :: bs => a == b && litMatch as bs

/-- JavaScript `String.prototype.includes` on character lists: `pat` occurs
as a contiguous substring (the empty pattern always occurs). -/
def containsList (pat : List Char) : List Char → Bool
  | [] => pat.isEmpty
  | c :: rest => litMatch pat (c :: rest) || containsList pat rest

/-- JavaScript `s.includes(pat)`. -/
def strContains (s pat : String) : Bool := containsList pat.toList s.toList

/-- The regex character class `[a-zA-Z0-9_-]` used for YouTube video ids and
Google Drive file ids. -/
def urlIdChar (c : Char) : Bool :=
  ('a' ≤ c && c ≤ 'z') || ('A' ≤ c && c ≤ 'Z') || ('0' ≤ c && c ≤ '9') ||
    c == '_' || c == '-'

/-- The regex class `\w` = `[a-zA-Z0-9_]`. -/
def wordChar (c : Char) : Bool :=
  ('a' ≤ c && c ≤ 'z') || ('A' ≤ c && c ≤ 'Z') || ('0' ≤ c && c ≤ '9') || c == '_'

/-! ## Gemini service: error and response model (src/unnamed/part_002) -/

inductive GeminiErrorType where
  | BLOCKED
  | RATE_LIMIT
  | SERVER_ERROR
  | UNKNOWN
deriving DecidableEq, Repr

/-- The `class GeminiError extends Error` carrying a message and a type. -/
structure GeminiError where
  message : String
  type : GeminiErrorType
deriving DecidableEq, Repr

/-- One `inlineData` payload of a response part. -/
structure InlineData where
  mimeType : String
  data : String
deriving DecidableEq, Repr

/-- A part of a candidate's content; only the optional `inlineData` field is
relevant to the embedded code. -/
structure GenPart where
  inlineData : Option InlineData
deriving DecidableEq, Repr

/-- A response candidate. The optional chain `candidate.content?.parts?` is
flattened into one optional `parts` list. -/
structure GenCandidate where
  finishReason : Option String
  parts : Option (List GenPart)
deriving DecidableEq, Repr

/-- The `GenerateContentResponse` fields read by the code.
`promptFeedback?.blockReason` is flattened into `blockReason`. -/
structure GenResponse where
  blockReason : Option String
  candidates : List GenCandidate
  text : Option String
deriving DecidableEq, Repr

/-- Outcome of one call of the external `ai.models.generateContent`:
either a response or a thrown error, keyed by its message string
(`error.message` / `JSON.stringify(error)`). -/
inductive GenOutcome where
  | success (r : GenResponse)
  | failure (msg : String)
deriving DecidableEq, Repr

/-- Errors thrown by the exported service functions: either the plain
`Error` for a malformed input data URL, or a `GeminiError`. -/
inductive AppError where
  | invalidDataUrl
  | gemini (e : GeminiError)
deriving DecidableEq, Repr

/-! ## Gemini service: helper functions -/

/-- Function `getFallbackPrompt` from src/unnamed/part_002. -/
def getFallbackPrompt (decade : String) : String :=
  "Create a photograph of the person in this image as if they were living in the " ++
    decade ++
    ". The photograph should capture the distinct fashion, hairstyles, and overall atmosphere of that time period. Ensure the final image is a clear photograph that looks authentic to the era."

/-- Try to match the regex `(\d{4}s)` at the head of the list: exactly four
digits followed by a literal `s`. -/
def decadeAt : List Char → Option String
  | d1 :: d2 :: d3 :: d4 :: c :: _ =>
    if d1.isDigit && d2.isDigit && d3.isDigit && d4.isDigit && c == 's' then
      some (String.mk [d1, d2, d3, d4, c])
    else none
  | _ => none

/-- Leftmost match of `(\d{4}s)`, scanning start positions left to right. -/
def findDecade : List Char → Option String
  | [] => none
  | c :: rest => decadeAt (c :: rest) <|> findDecade rest

/-- Function `extractDecade` from src/unnamed/part_002: `prompt.match` on the regex of `decadeAt`. -/
def extractDecade (prompt : String) : Option String :=
  findDecade prompt.toList

/-- The safety check at the top of `processGeminiResponse`:
`promptFeedback?.blockReason === 'SAFETY' || candidates?.[0]?.finishReason === 'SAFETY'`. -/
def safetyBlocked (r : GenResponse) : Bool :=
  r.blockReason == some "SAFETY" ||
    (r.candidates.head?.bind (fun c => c.finishReason)) == some "SAFETY"

/-- The lookup `candidates?.[0]?.content?.parts?.find(part => part.inlineData)`. -/
def firstInlinePart (r : GenResponse) : Option GenPart :=
  match r.candidates.head? with
  | none => none
  | some c =>
    match c.parts with
    | none => none
    | some ps => ps.find? (fun p => p.inlineData.isSome)

/-- The inline data of the first inline-data part, when there is one. -/
def firstInlineData (r : GenResponse) : Option InlineData :=
  (firstInlinePart r).bind (fun p => p.inlineData)

def safetyBlockedMsg : String := "The prompt or image was blocked due to safety policies."

def noImageMsg : String :=
  "The AI model responded with text instead of an image, which may indicate a content policy issue."

/-- Function `processGeminiResponse` from src/unnamed/part_002. -/
def processGeminiResponse (r : GenResponse) : Except GeminiError String :=
  if safetyBlocked r then
    Except.error ⟨safetyBlockedMsg, GeminiErrorType.BLOCKED⟩
  else
    match firstInlinePart r with
    | some pt =>
      match pt.inlineData with
      | some d => Except.ok ("data:" ++ d.mimeType ++ ";base64," ++ d.data)
      | none => Except.error ⟨noImageMsg, GeminiErrorType.BLOCKED⟩
    | none => Except.error ⟨noImageMsg, GeminiErrorType.BLOCKED⟩

/-! ## Gemini service: the retry loop -/

def maxRetries : Nat := 3
def initialDelay : Nat := 1000

/-- The check `errorMessage.includes` of `500`, `INTERNAL` or `503`. -/
def isInternalMsg (m : String) : Bool :=
  strContains m "500" || strContains m "INTERNAL" || strContains m "503"

def rateLimitMsg : String := "You are making too many requests. Please wait and try again later."
def serverErrorMsg : String := "The AI model service is currently unavailable. Please try again later."
def allRetriesMsg : String := "Gemini API call failed after all retries."

/-- Unknown-error message: `An unknown API error occurred: ${errorMessage}`. -/
def unknownMsg (m : String) : String := "An unknown API error occurred: " ++ m

/-- The observable behaviour of one run of `callGeminiWithRetry`: the value
returned or the `GeminiError` thrown, how many `generateContent` attempts
were made, and the `setTimeout` delays (in ms) between attempts. -/
structure RetryTrace where
  result : Except GeminiError GenResponse
  attemptsMade : Nat
  delays : List Nat
deriving Repr

/-- The `for (let attempt = 1; attempt <= maxRetries; attempt++)` loop body of
`callGeminiWithRetry`. `outcomes k` is the outcome of the k-th attempt of the
external call; the fuel argument counts the loop iterations still allowed, and
the fuel-exhausted case is the dead `throw` after the loop. -/
def callGeminiLoop (outcomes : Nat → GenOutcome) : Nat → Nat → RetryTrace
  | _, 0 => ⟨Except.error ⟨allRetriesMsg, GeminiErrorType.SERVER_ERROR⟩, 0, []⟩
  | attempt, fuel + 1 =>
    match outcomes attempt with
    | GenOutcome.success r => ⟨Except.ok r, 1, []⟩
    | GenOutcome.failure msg =>
      if strContains msg "429" then
        ⟨Except.error ⟨rateLimitMsg, GeminiErrorType.RATE_LIMIT⟩, 1, []⟩
      else if isInternalMsg msg && decide (attempt < maxRetries) then
        let rest := callGeminiLoop outcomes (attempt + 1) fuel
        ⟨rest.result, rest.attemptsMade + 1, (initialDelay * 2 ^ (attempt - 1)) :: rest.delays⟩
      else if isInternalMsg msg then
        ⟨Except.error ⟨serverErrorMsg, GeminiErrorType.SERVER_ERROR⟩, 1, []⟩
      else
        ⟨Except.error ⟨unknownMsg msg, GeminiErrorType.UNKNOWN⟩, 1, []⟩

/-- Function `callGeminiWithRetry` from src/unnamed/part_002, as a function of the
outcomes of the successive external `generateContent` calls. -/
def callGeminiWithRetry (outcomes : Nat → GenOutcome) : RetryTrace :=
  callGeminiLoop outcomes 1 maxRetries

/-! ## Gemini service: exported generation functions -/

/-- The input check shared by `generateImageFromPrompt` and
`generateDecadeImage`: `imageDataUrl.match(/^data:(image\/\w+);base64,(.*)$/)`.
Returns the captured mime type (`image/<word>`) and base64 payload. The
anchored regex requires the exact shape; `(.*)` does not match JS line
terminators, so a payload holding one fails the match. -/
def parseImageDataUrl (s : String) : Option (String × String) :=
  let cs := s.toList
  if litMatch "data:image/".toList cs then
    let rest := cs.drop 11
    let mime := rest.takeWhile wordChar
    let rest2 := rest.dropWhile wordChar
    if mime.isEmpty then none
    else if litMatch ";base64,".toList rest2 then
      let payload := rest2.drop 8
      if payload.all
          (fun c => !(c == '\n' || c == '\r' || c == '\u2028' || c == '\u2029')) then
        some (String.mk ("image/".toList ++ mime), String.mk payload)
      else none
    else none
  else none

/-- One try-block of a generation attempt: `callGeminiWithRetry` followed by
`processGeminiResponse`; any of the two may throw a `GeminiError`. `env` maps
the text prompt of the request to the outcomes of the external call attempts. -/
def attemptOnce (env : String → Nat → GenOutcome) (prompt : String) :
    Except GeminiError String :=
  match (callGeminiWithRetry (env prompt)).result with
  | Except.error e => Except.error e
  | Except.ok r => processGeminiResponse r

/-- Function `generateImageFromPrompt` from src/unnamed/part_002: validate the data
URL, make one generation attempt and re-throw its error unchanged. -/
def generateImageFromPrompt (env : String → Nat → GenOutcome)
    (imageDataUrl prompt : String) : Except AppError String :=
  match parseImageDataUrl imageDataUrl with
  | none => Except.error AppError.invalidDataUrl
  | some _ =>
    match attemptOnce env prompt with
    | Except.ok s => Except.ok s
    | Except.error e => Except.error (AppError.gemini e)

/-- Result of `generateDecadeImage` together with the list of text prompts it
actually sent, in order. -/
structure GenRun where
  result : Except AppError String
  promptsTried : List String
deriving Repr

/-- Function `generateDecadeImage` from src/unnamed/part_002: first attempt with the
original prompt; on a BLOCKED `GeminiError`, one fallback attempt with
`getFallbackPrompt` of the extracted decade (re-throwing the original error
when no decade can be extracted, and the fallback's error when the fallback
also fails); any non-BLOCKED error is re-thrown directly. All errors thrown
inside the try-blocks are `GeminiError`s, so the `instanceof` check is the
`type` test. -/
def generateDecadeImage (env : String → Nat → GenOutcome)
    (imageDataUrl prompt : String) : GenRun :=
  match parseImageDataUrl imageDataUrl with
  | none => ⟨Except.error AppError.invalidDataUrl, []⟩
  | some _ =>
    match attemptOnce env prompt with
    | Except.ok s => ⟨Except.ok s, [prompt]⟩
    | Except.error e =>
      if e.type = GeminiErrorType.BLOCKED then
        match extractDecade prompt with
        | none => ⟨Except.error (AppError.gemini e), [prompt]⟩
        | some decade =>
          match attemptOnce env (getFallbackPrompt decade) with
          | Except.ok s => ⟨Except.ok s, [prompt, getFallbackPrompt decade]⟩
          | Except.error e2 =>
            ⟨Except.error (AppError.gemini e2), [prompt, getFallbackPrompt decade]⟩
      else ⟨Except.error (AppError.gemini e), [prompt]⟩

/-! ## URL normalizers (src/unnamed/part_006) -/

/-- Try to match `lit` followed by a non-empty greedy run of `[a-zA-Z0-9_-]`
at the head of `cs`; the capture is the maximal run. -/
def tryLitAt (lit : List Char) (cs : List Char) : Option (List Char) :=
  if litMatch lit cs then
    let run := (cs.drop lit.length).takeWhile urlIdChar
    if run.isEmpty then none else some run
  else none

/-- Unanchored leftmost search for `lit` followed by a non-empty id run:
JS `url.match` over one of the YouTube patterns. The optional non-capturing
prefixes `(?:https?:\/\/)?(?:www\.)?` can always match the empty string and
never contain nor overlap the literal (which starts with `y`, a character
absent from `http://`, `https://` and `www.`), so they affect neither
matching success nor the captured id. -/
def findPattern (lit : List Char) : List Char → Option (List Char)
  | [] => none
  | c :: rest => tryLitAt lit (c :: rest) <|> findPattern lit rest

def ytLit1 : List Char := "youtube.com/watch?v=".toList
def ytLit2 : List Char := "youtu.be/".toList
def ytLit3 : List Char := "youtube.com/embed/".toList
def ytLit4 : List Char := "youtube.com/shorts/".toList

def ytEmbedBase : String := "https://www.youtube.com/embed/"

/-- Function `getYouTubeEmbedUrl` from src/unnamed/part_006 (the identical copy in
src/components/VideoScribePage.tsx is the same function): the patterns are
tried in order and the loop breaks at the first match; the try/catch is dead
code since none of the operations throws. -/
def getYouTubeEmbedUrl (url : String) : Option String :=
  match findPattern ytLit1 url.toList <|> findPattern ytLit2 url.toList <|>
      findPattern ytLit3 url.toList <|> findPattern ytLit4 url.toList with
  | some videoId => some (ytEmbedBase ++ String.mk videoId)
  | none => none

def fileLit : List Char := "/file/d/".toList
def idEqLit : List Char := "id=".toList
def ucLit : List Char := "uc?id=".toList

/-- One alternative of the Drive regex at the head of `cs`: the literal
followed by a greedy run of at least 25 id characters. -/
def driveTryAt (lit : List Char) (cs : List Char) : Option (List Char) :=
  if litMatch lit cs then
    let run := (cs.drop lit.length).takeWhile urlIdChar
    if 25 ≤ run.length then some run else none
  else none

/-- Leftmost match of
`\/file\/d\/([a-zA-Z0-9_-]{25,})|id=([a-zA-Z0-9_-]{25,})|uc\?id=([a-zA-Z0-9_-]{25,})`:
at each start position the three alternatives are tried in order. The
returned run is `match[1] || match[2] || match[3]` (exactly one group is set). -/
def driveFindId : List Char → Option (List Char)
  | [] => none
  | c :: rest =>
    (driveTryAt fileLit (c :: rest) <|> driveTryAt idEqLit (c :: rest) <|>
        driveTryAt ucLit (c :: rest)) <|> driveFindId rest

/-- The `'image' | 'video'` union used by `convertGoogleDriveUrl` and by the
admin delete handler. -/
inductive MediaType where
  | image
  | video
deriving DecidableEq, Repr

def driveDownloadBase : String := "https://drive.google.com/uc?export=download&id="
def drivePreviewBase : String := "https://drive.google.com/file/d/"

/-- Function `convertGoogleDriveUrl` from src/unnamed/part_006 (the copy in
src/components/AdminPage.tsx is identical). The code evaluates
`url.match(regex)` and `url.includes('drive.google.com')` and requires both;
the two conditions are independent, so testing the match first is faithful.
The matched group is non-empty (25+ characters), so the `if (fileId)`
truthiness test always passes when a match exists. -/
def convertGoogleDriveUrl (url : String) (t : MediaType) : Option String :=
  match driveFindId url.toList with
  | none => none
  | some fileId =>
    if strContains url "drive.google.com" then
      match t with
      | MediaType.image => some (driveDownloadBase ++ String.mk fileId)
      | MediaType.video => some (drivePreviewBase ++ String.mk fileId ++ "/preview")
    else none

/-! ## Admin CRUD list operations (src/unnamed/part_005, src/App.tsx) -/

/-- Item ids are `number | string` in the TypeScript types. -/
def ItemId : Type := Nat ⊕ String
deriving instance DecidableEq, Repr for ItemId

structure CollectionItem where
  id : ItemId
  url : String
  prompt : String
deriving DecidableEq, Repr

structure VideoItem where
  id : ItemId
  url : String
  script : String
deriving DecidableEq, Repr

/-- The `handleUpdateImage` state update (src/unnamed/part_005):
`prev.map(i => i.id === item.id ? item : i)`. The same `map` is used by
`handleUpdateCollectionItem` in src/App.tsx with the item returned by the
API. -/
def handleUpdateImage (item : CollectionItem) (prev : List CollectionItem) :
    List CollectionItem :=
  prev.map (fun i => if i.id = item.id then item else i)

/-- The two admin-managed lists. -/
structure AdminListsState where
  collection : List CollectionItem
  videos : List VideoItem
deriving DecidableEq, Repr

/-- The `itemToDelete` state: `{ type: 'image' | 'video', id }`. -/
structure DeleteTarget where
  type : MediaType
  id : ItemId
deriving DecidableEq, Repr

/-- The `handleConfirmDelete` state update (src/unnamed/part_005): no-op when
`itemToDelete` is null, otherwise `filter(x => x.id !== itemToDelete.id)` on
the list selected by `itemToDelete.type`. -/
def handleConfirmDelete (itemToDelete : Option DeleteTarget)
    (s : AdminListsState) : AdminListsState :=
  match itemToDelete with
  | none => s
  | some target =>
    match target.type with
    | MediaType.image =>
      AdminListsState.mk (s.collection.filter (fun i => decide (i.id ≠ target.id))) s.videos
    | MediaType.video =>
      AdminListsState.mk s.collection (s.videos.filter (fun v => decide (v.id ≠ target.id)))

/-! ## Initial data fetch (src/App.tsx fetchData) -/

/-- Outcome of one `fetch` as seen by `fetchData`: a rejected promise, or a
response with its `ok` flag and parsed JSON body. -/
inductive FetchResult (α : Type) where
  | rejected
  | response (ok : Bool) (body : α)
deriving DecidableEq, Repr

structure AppDataState where
  collectionItems : List CollectionItem
  videoItems : List VideoItem
  apiError : Option String
deriving DecidableEq, Repr

/-- The static fallback collection items hard-coded in src/App.tsx. -/
def sampleCollectionItems : List CollectionItem :=
  [⟨Sum.inr "sample1",
    "https://storage.googleapis.com/aistudio-samples/past-forward/c_1.jpeg",
    "A majestic dragon perched atop a snow-covered mountain peak at dawn."⟩,
   ⟨Sum.inr "sample2",
    "https://storage.googleapis.com/aistudio-samples/past-forward/c_2.jpeg",
    "Cyberpunk warrior princess with neon katanas on a rainy Tokyo street."⟩]

/-- The static fallback video item hard-coded in src/App.tsx. -/
def sampleVideoItems : List VideoItem :=
  [⟨Sum.inr "sample1", "https://www.youtube.com/watch?v=3JZ_D3ELwOQ",
    "This is a sample script. In a real app, this content would be loaded from your database via a backend API."⟩]

def fetchFailedMsg : String := "API fetch failed, loading sample data as a fallback."

/-- Function `fetchData` from src/App.tsx: both fetches must resolve with `ok`
responses; any rejection or non-ok response throws into the catch block,
which sets the error banner and loads the sample data. JSON parsing is
modelled as part of the response body. -/
def fetchData (imagesRes : FetchResult (List CollectionItem))
    (videosRes : FetchResult (List VideoItem)) : AppDataState :=
  match imagesRes, videosRes with
  | FetchResult.response true imgs, FetchResult.response true vids =>
    AppDataState.mk imgs vids none
  | _, _ =>
    AppDataState.mk sampleCollectionItems sampleVideoItems (some fetchFailedMsg)

/-! ## Login form (src/components/LoginPage.tsx) -/

structure LoginState where
  password : String
  error : String
  isLoading : Bool
deriving DecidableEq, Repr

def incorrectPasswordMsg : String := "Incorrect password. Please try again."

/-- Function `handleSubmit` of LoginPage: after the simulated delay, compare the
password against the hard-coded `'Raju'`; the returned flag records whether
`onLoginSuccess` was invoked. In both branches `isLoading` ends false and the
password field is cleared; `setError('')` runs first, so the error is empty
on success and the failure message otherwise. -/
def handleSubmit (s : LoginState) : LoginState × Bool :=
  if s.password = "Raju" then
    (LoginState.mk "" "" false, true)
  else
    (LoginState.mk "" incorrectPasswordMsg false, false)

/-! ## API response helper (src/services/apiService.ts) -/

/-- The fields of a fetch `Response` read by `handleResponse`; `body` is the
JSON value that `response.json()` would produce. -/
structure HttpResponse (α : Type) where
  ok : Bool
  status : Nat
  contentType : Option String
  body : α

def serverErrorUserMsg : String := "The server returned an error. Please try again later."

/-- Function `handleResponse` from src/services/apiService.ts: throw on `!ok`,
otherwise parse the body exactly when the content-type header exists and
contains `application/json`, returning `undefined` (here `none`) otherwise. -/
def handleResponse {α : Type} (response : HttpResponse α) : Except String (Option α) :=
  if response.ok = false then
    Except.error serverErrorUserMsg
  else
    match response.contentType with
    | some ct =>
      if strContains ct "application/json" then Except.ok (some response.body)
      else Except.ok none
    | none => Except.ok none

/-! ## Specification-side predicates and fixtures

These definitions follow the wording of the checked claims (not the code);
the theorems below relate them to the embedded functions. -/

/-- One YouTube URL shape, claim-side: the literal marker followed by the
given id occurs contiguously in the character list. -/
def ytShapeAt (lit cs vid : List Char) : Prop :=
  ∃ pre suf, cs = pre ++ lit ++ vid ++ suf

/-- A string matches a YouTube URL shape: its marker occurs followed by a
non-empty run of characters from `[a-zA-Z0-9_-]`. -/
def ytShapeSpec (lit cs : List Char) : Prop :=
  ∃ vid, vid ≠ [] ∧ (∀ c ∈ vid, urlIdChar c = true) ∧ ytShapeAt lit cs vid

/-- A string contains a Google Drive file id of at least 25 characters from
`[a-zA-Z0-9_-]` introduced by `/file/d/`, `id=` or `uc?id=`. -/
def driveShapeSpec (cs : List Char) : Prop :=
  ∃ lit, (lit = fileLit ∨ lit = idEqLit ∨ lit = ucLit) ∧
    ∃ pre fid suf, cs = pre ++ lit ++ fid ++ suf ∧ 25 ≤ fid.length ∧
      ∀ c ∈ fid, urlIdChar c = true

/-- The prompt contains a decade substring matching `(\d{4}s)`. -/
def hasDecadeSpec (prompt : String) : Prop :=
  ∃ pre d1 d2 d3 d4 suf, prompt.toList = pre ++ [d1, d2, d3, d4, 's'] ++ suf ∧
    d1.isDigit = true ∧ d2.isDigit = true ∧ d3.isDigit = true ∧ d4.isDigit = true

/-- Claim C1's description of `callGeminiWithRetry`, written as a direct case
analysis on the outcomes of at most three attempts: a success returns that
response; a message containing `429` raises RATE_LIMIT immediately; an
internal-error message (`500`, `INTERNAL` or `503`) retries after a delay of
`1000 * 2 ^ (attempt - 1)` ms while fewer than 3 attempts have been made and
raises SERVER_ERROR at the third; anything else raises UNKNOWN immediately. -/
def retrySpecFromClaim (outcomes : Nat → GenOutcome) : RetryTrace :=
  match outcomes 1 with
  | GenOutcome.success r => ⟨Except.ok r, 1, []⟩
  | GenOutcome.failure m1 =>
    if strContains m1 "429" then
      ⟨Except.error ⟨rateLimitMsg, GeminiErrorType.RATE_LIMIT⟩, 1, []⟩
    else if isInternalMsg m1 then
      match outcomes 2 with
      | GenOutcome.success r => ⟨Except.ok r, 2, [1000]⟩
      | GenOutcome.failure m2 =>
        if strContains m2 "429" then
          ⟨Except.error ⟨rateLimitMsg, GeminiErrorType.RATE_LIMIT⟩, 2, [1000]⟩
        else if isInternalMsg m2 then
          match outcomes 3 with
          | GenOutcome.success r => ⟨Except.ok r, 3, [1000, 2000]⟩
          | GenOutcome.failure m3 =>
            if strContains m3 "429" then
              ⟨Except.error ⟨rateLimitMsg, GeminiErrorType.RATE_LIMIT⟩, 3, [1000, 2000]⟩
            else if isInternalMsg m3 then
              ⟨Except.error ⟨serverErrorMsg, GeminiErrorType.SERVER_ERROR⟩, 3, [1000, 2000]⟩
            else ⟨Except.error ⟨unknownMsg m3, GeminiErrorType.UNKNOWN⟩, 3, [1000, 2000]⟩
        else ⟨Except.error ⟨unknownMsg m2, GeminiErrorType.UNKNOWN⟩, 2, [1000]⟩
    else ⟨Except.error ⟨unknownMsg m1, GeminiErrorType.UNKNOWN⟩, 1, []⟩

/-! Concrete fixtures used by the witness theorems. -/

/-- A response with no candidates: `processGeminiResponse` raises BLOCKED. -/
def wRespNoImage : GenResponse := ⟨none, [], none⟩

def wEnvNoImage : String → Nat → GenOutcome := fun _ _ => GenOutcome.success wRespNoImage

/-- A response whose first part carries inline image data. -/
def wRespInline : GenResponse :=
  ⟨none, [⟨none, some [⟨some ⟨"image/png", "QUJD"⟩⟩]⟩], none⟩

def wOutcomesInline : Nat → GenOutcome := fun _ => GenOutcome.success wRespInline

def wEnvInline : String → Nat → GenOutcome := fun _ _ => GenOutcome.success wRespInline

def wDataUrl : String := "data:image/png;base64,QUJD"

/-! ## Lemmas: string scanning -/

theorem litMatch_iff {lit cs : List Char} : litMatch lit cs = true ↔ lit <+: cs := by
  induction lit generalizing cs with
  | nil => simp [litMatch]
  | cons a as ih =>
    cases cs with
    | nil => simp [litMatch]
    | cons b bs => simp [litMatch, List.cons_prefix_cons, ih]

theorem containsList_iff {pat cs : List Char} : containsList pat cs = true ↔ pat <:+: cs := by
  induction cs with
  | nil => simp [containsList, List.isEmpty_iff]
  | cons c rest ih => simp [containsList, litMatch_iff, ih, List.infix_cons_iff]

theorem strContains_iff {s pat : String} : strContains s pat = true ↔ pat.toList <:+: s.toList := by
  simpa [strContains] using containsList_iff

theorem tryLitAt_eq_some {lit cs run : List Char} (h : tryLitAt lit cs = some run) :
    run ≠ [] ∧ (∀ c ∈ run, urlIdChar c = true) ∧ ∃ suf, cs = lit ++ run ++ suf := by
  simp only [tryLitAt] at h
  split at h
  case isFalse => exact absurd h (by simp)
  case isTrue hp =>
    obtain ⟨t, ht⟩ := litMatch_iff.mp hp
    have hdrop : cs.drop lit.length = t := by rw [← ht, List.drop_left]
    rw [hdrop] at h
    split at h
    case isTrue => exact absurd h (by simp)
    case isFalse hne =>
      obtain rfl : t.takeWhile urlIdChar = run := Option.some.inj h
      refine ⟨by simpa [List.isEmpty_iff] using hne,
        fun c hc => List.mem_takeWhile_imp hc, t.dropWhile urlIdChar, ?_⟩
      rw [← ht, List.append_assoc, List.takeWhile_append_dropWhile]

theorem findPattern_eq_some {lit cs run : List Char} (h : findPattern lit cs = some run) :
    run ≠ [] ∧ (∀ c ∈ run, urlIdChar c = true) ∧ ∃ pre suf, cs = pre ++ lit ++ run ++ suf := by
  induction cs with
  | nil => simp [findPattern] at h
  | cons c rest ih =>
    rw [findPattern] at h
    cases ht : tryLitAt lit (c :: rest) with
    | some r =>
      rw [ht, Option.some_orElse] at h
      obtain rfl : r = run := Option.some.inj h
      obtain ⟨h1, h2, suf, h3⟩ := tryLitAt_eq_some ht
      exact ⟨h1, h2, [], suf, by simpa using h3⟩
    | none =>
      rw [ht, Option.none_orElse] at h
      obtain ⟨h1, h2, pre, suf, h3⟩ := ih h
      exact ⟨h1, h2, c :: pre, suf, by simp [h3]⟩

theorem findPattern_isSome_of {lit : List Char} (hlit : lit ≠ []) {pre run suf : List Char}
    (hne : run ≠ []) (hall : ∀ c ∈ run, urlIdChar c = true) :
    (findPattern lit (pre ++ lit ++ run ++ suf)).isSome = true := by
  induction pre with
  | nil =>
    obtain ⟨a, as, rfl⟩ := List.exists_cons_of_ne_nil hlit
    obtain ⟨r0, rs, rfl⟩ := List.exists_cons_of_ne_nil hne
    rw [show ([] ++ (a :: as) ++ (r0 :: rs) ++ suf : List Char) =
      a :: (as ++ (r0 :: rs) ++ suf) from by simp]
    rw [findPattern]
    have hp : litMatch (a :: as) (a :: (as ++ (r0 :: rs) ++ suf)) = true := by
      refine litMatch_iff.mpr (List.cons_prefix_cons.mpr ⟨rfl, ?_⟩)
      rw [List.append_assoc]
      exact List.prefix_append _ _
    have hdrop : (a :: (as ++ (r0 :: rs) ++ suf)).drop (a :: as).length = r0 :: rs ++ suf := by
      rw [show a :: (as ++ (r0 :: rs) ++ suf) = (a :: as) ++ ((r0 :: rs) ++ suf) from by simp]
      rw [List.drop_left]
    have hr0 : urlIdChar r0 = true := hall r0 (by simp)
    rw [tryLitAt, if_pos hp, hdrop]
    rw [show (r0 :: rs ++ suf : List Char).takeWhile urlIdChar =
      r0 :: ((rs ++ suf).takeWhile urlIdChar) from by simp [List.takeWhile_cons, hr0]]
    simp
  | cons p pre ih =>
    rw [show ((p :: pre) ++ lit ++ run ++ suf : List Char) =
      p :: (pre ++ lit ++ run ++ suf) from by simp]
    rw [findPattern]
    cases ht : tryLitAt lit (p :: (pre ++ lit ++ run ++ suf)) with
    | some r => simp
    | none => simpa [ht, Option.none_orElse] using ih

/-- If the literal holds a character outside the id class, it cannot match
inside an all-id-character list. -/
theorem findPattern_none_of_allId (lit cs : List Char) (c0 : Char) (hc0 : c0 ∈ lit)
    (hbad : urlIdChar c0 = false) (hall : ∀ c ∈ cs, urlIdChar c = true) :
    findPattern lit cs = none := by
  induction cs with
  | nil => rfl
  | cons c rest ih =>
    rw [findPattern]
    have ht : tryLitAt lit (c :: rest) = none := by
      rw [tryLitAt]
      cases hp : litMatch lit (c :: rest) with
      | false => simp
      | true =>
        have hmem : c0 ∈ c :: rest := (litMatch_iff.mp hp).sublist.subset hc0
        rw [hall c0 hmem] at hbad
        exact absurd hbad (by simp)
    rw [ht, Option.none_orElse]
    exact ih (fun c hc => hall c (by simp [hc]))

/-- Firing at position 0: the literal at the head followed by a non-empty id
run captures the maximal run. -/
theorem findPattern_fire {lit : List Char} (hlit : lit ≠ []) {rest : List Char}
    (hne : rest.takeWhile urlIdChar ≠ []) :
    findPattern lit (lit ++ rest) = some (rest.takeWhile urlIdChar) := by
  obtain ⟨a, as, rfl⟩ := List.exists_cons_of_ne_nil hlit
  rw [show ((a :: as) ++ rest : List Char) = a :: (as ++ rest) from by simp]
  rw [findPattern]
  have hp : litMatch (a :: as) (a :: (as ++ rest)) = true :=
    litMatch_iff.mpr (List.prefix_append _ _)
  have hdrop : (a :: (as ++ rest)).drop (a :: as).length = rest := by
    rw [show a :: (as ++ rest) = (a :: as) ++ rest from by simp, List.drop_left]
  rw [tryLitAt, if_pos hp, hdrop, if_neg (by simpa [List.isEmpty_iff] using hne)]
  simp

/-! ## Lemmas: Drive id scanning -/

theorem driveTryAt_eq_some {lit cs run : List Char} (h : driveTryAt lit cs = some run) :
    25 ≤ run.length ∧ (∀ c ∈ run, urlIdChar c = true) ∧ ∃ suf, cs = lit ++ run ++ suf := by
  simp only [driveTryAt] at h
  split at h
  case isFalse => exact absurd h (by simp)
  case isTrue hp =>
    obtain ⟨t, ht⟩ := litMatch_iff.mp hp
    have hdrop : cs.drop lit.length = t := by rw [← ht, List.drop_left]
    rw [hdrop] at h
    split at h
    case isFalse => exact absurd h (by simp)
    case isTrue hlen =>
      obtain rfl : t.takeWhile urlIdChar = run := Option.some.inj h
      refine ⟨hlen, fun c hc => List.mem_takeWhile_imp hc, t.dropWhile urlIdChar, ?_⟩
      rw [← ht, List.append_assoc, List.takeWhile_append_dropWhile]

theorem driveFindId_eq_some {cs run : List Char} (h : driveFindId cs = some run) :
    25 ≤ run.length ∧ (∀ c ∈ run, urlIdChar c = true) ∧
      ∃ lit, (lit = fileLit ∨ lit = idEqLit ∨ lit = ucLit) ∧
        ∃ pre suf, cs = pre ++ lit ++ run ++ suf := by
  induction cs with
  | nil => simp [driveFindId] at h
  | cons c rest ih =>
    rw [driveFindId] at h
    cases h1 : driveTryAt fileLit (c :: rest) with
    | some r =>
      rw [h1] at h
      simp only [Option.some_orElse] at h
      obtain rfl : r = run := Option.some.inj h
      obtain ⟨ha, hb, suf, hc⟩ := driveTryAt_eq_some h1
      exact ⟨ha, hb, fileLit, Or.inl rfl, [], suf, by simpa using hc⟩
    | none =>
      rw [h1, Option.none_orElse] at h
      cases h2 : driveTryAt idEqLit (c :: rest) with
      | some r =>
        rw [h2] at h
        simp only [Option.some_orElse] at h
        obtain rfl : r = run := Option.some.inj h
        obtain ⟨ha, hb, suf, hc⟩ := driveTryAt_eq_some h2
        exact ⟨ha, hb, idEqLit, Or.inr (Or.inl rfl), [], suf, by simpa using hc⟩
      | none =>
        rw [h2, Option.none_orElse] at h
        cases h3 : driveTryAt ucLit (c :: rest) with
        | some r =>
          rw [h3, Option.some_orElse] at h
          obtain rfl : r = run := Option.some.inj h
          obtain ⟨ha, hb, suf, hc⟩ := driveTryAt_eq_some h3
          exact ⟨ha, hb, ucLit, Or.inr (Or.inr rfl), [], suf, by simpa using hc⟩
        | none =>
          rw [h3, Option.none_orElse] at h
          obtain ⟨ha, hb, lit, hlit, pre, suf, hc⟩ := ih h
          exact ⟨ha, hb, lit, hlit, c :: pre, suf, by simp [hc]⟩

theorem driveTryAt_isSome_at_head {lit : List Char} {run suf : List Char}
    (hlen : 25 ≤ run.length) (hall : ∀ c ∈ run, urlIdChar c = true) :
    (driveTryAt lit (lit ++ run ++ suf)).isSome = true := by
  have hp : litMatch lit (lit ++ run ++ suf) = true := by
    refine litMatch_iff.mpr ?_
    rw [List.append_assoc]
    exact List.prefix_append _ _
  have hdrop : (lit ++ run ++ suf).drop lit.length = run ++ suf := by
    rw [List.append_assoc, List.drop_left]
  rw [driveTryAt, if_pos hp, hdrop, List.takeWhile_append_of_pos hall]
  have : 25 ≤ (run ++ (suf.takeWhile urlIdChar)).length := by
    simp only [List.length_append]
    omega
  rw [if_pos this]
  rfl

theorem driveFindId_isSome_of {lit : List Char}
    (hlit : lit = fileLit ∨ lit = idEqLit ∨ lit = ucLit) {pre run suf : List Char}
    (hlen : 25 ≤ run.length) (hall : ∀ c ∈ run, urlIdChar c = true) :
    (driveFindId (pre ++ lit ++ run ++ suf)).isSome = true := by
  induction pre with
  | nil =>
    have hcons : ∃ a rest, ([] ++ lit ++ run ++ suf : List Char) = a :: rest := by
      rcases hlit with h | h | h <;> subst h <;>
        exact ⟨_, _, rfl⟩
    obtain ⟨a, rest, hc⟩ := hcons
    rw [hc, driveFindId]
    have htry : (driveTryAt lit (a :: rest)).isSome = true := by
      rw [show (a :: rest : List Char) = lit ++ run ++ suf from by rw [← hc]; simp]
      exact driveTryAt_isSome_at_head hlen hall
    have hfire : (driveTryAt fileLit (a :: rest) <|> driveTryAt idEqLit (a :: rest) <|>
        driveTryAt ucLit (a :: rest)).isSome = true := by
      rcases hlit with h | h | h <;> subst h <;>
        cases hf : driveTryAt fileLit (a :: rest) <;>
          cases hi : driveTryAt idEqLit (a :: rest) <;>
            cases hu : driveTryAt ucLit (a :: rest) <;>
              simp_all
    cases hh : (driveTryAt fileLit (a :: rest) <|> driveTryAt idEqLit (a :: rest) <|>
        driveTryAt ucLit (a :: rest)) with
    | none => rw [hh] at hfire; simp at hfire
    | some r => simp
  | cons p pre ih =>
    rw [show ((p :: pre) ++ lit ++ run ++ suf : List Char) =
      p :: (pre ++ lit ++ run ++ suf) from by simp]
    rw [driveFindId]
    cases hh : (driveTryAt fileLit _ <|> driveTryAt idEqLit _ <|> driveTryAt ucLit _) with
    | none => rw [Option.none_orElse]; exact ih
    | some r => simp

/-! ## Lemmas: decade extraction -/

theorem decadeAt_eq_some {cs : List Char} {s : String} (h : decadeAt cs = some s) :
    ∃ d1 d2 d3 d4 rest, cs = d1 :: d2 :: d3 :: d4 :: 's' :: rest ∧
      d1.isDigit = true ∧ d2.isDigit = true ∧ d3.isDigit = true ∧ d4.isDigit = true ∧
      s = String.mk [d1, d2, d3, d4, 's'] := by
  unfold decadeAt at h
  split at h
  case h_2 => exact absurd h (by simp)
  case h_1 d1 d2 d3 d4 c rest =>
    split at h
    case isFalse => exact absurd h (by simp)
    case isTrue hc =>
      simp only [Bool.and_eq_true, beq_iff_eq] at hc
      obtain ⟨⟨⟨⟨h1, h2⟩, h3⟩, h4⟩, h5⟩ := hc
      subst h5
      exact ⟨d1, d2, d3, d4, rest, rfl, h1, h2, h3, h4, (Option.some.inj h).symm⟩

theorem findDecade_eq_some {cs : List Char} {s : String} (h : findDecade cs = some s) :
    ∃ pre d1 d2 d3 d4 suf, cs = pre ++ [d1, d2, d3, d4, 's'] ++ suf ∧
      d1.isDigit = true ∧ d2.isDigit = true ∧ d3.isDigit = true ∧ d4.isDigit = true ∧
      s = String.mk [d1, d2, d3, d4, 's'] := by
  induction cs with
  | nil => simp [findDecade] at h
  | cons c rest ih =>
    rw [findDecade] at h
    cases hd : decadeAt (c :: rest) with
    | some s0 =>
      rw [hd, Option.some_orElse] at h
      obtain rfl : s0 = s := Option.some.inj h
      obtain ⟨d1, d2, d3, d4, r, hcs, h1, h2, h3, h4, h5⟩ := decadeAt_eq_some hd
      exact ⟨[], d1, d2, d3, d4, r, by simp [hcs], h1, h2, h3, h4, h5⟩
    | none =>
      rw [hd, Option.none_orElse] at h
      obtain ⟨pre, d1, d2, d3, d4, suf, hcs, hrest⟩ := ih h
      exact ⟨c :: pre, d1, d2, d3, d4, suf, by simp [hcs], hrest⟩

theorem findDecade_isSome_of {pre suf : List Char} {d1 d2 d3 d4 : Char}
    (h1 : d1.isDigit = true) (h2 : d2.isDigit = true) (h3 : d3.isDigit = true)
    (h4 : d4.isDigit = true) :
    (findDecade (pre ++ [d1, d2, d3, d4, 's'] ++ suf)).isSome = true := by
  induction pre with
  | nil =>
    rw [show ([] ++ [d1, d2, d3, d4, 's'] ++ suf : List Char) =
      d1 :: d2 :: d3 :: d4 :: 's' :: suf from by simp]
    rw [findDecade]
    rw [show decadeAt (d1 :: d2 :: d3 :: d4 :: 's' :: suf) =
      some (String.mk [d1, d2, d3, d4, 's']) from by simp [decadeAt, h1, h2, h3, h4]]
    simp
  | cons p pre ih =>
    rw [show ((p :: pre) ++ [d1, d2, d3, d4, 's'] ++ suf : List Char) =
      p :: (pre ++ [d1, d2, d3, d4, 's'] ++ suf) from by simp]
    rw [findDecade]
    cases hd : decadeAt (p :: (pre ++ [d1, d2, d3, d4, 's'] ++ suf)) with
    | some s0 => simp
    | none => rw [Option.none_orElse]; exact ih

theorem extractDecade_isSome_iff {prompt : String} :
    (extractDecade prompt).isSome = true ↔ hasDecadeSpec prompt := by
  constructor
  · intro h
    obtain ⟨s, hs⟩ := Option.isSome_iff_exists.mp h
    obtain ⟨pre, d1, d2, d3, d4, suf, hcs, hd1, hd2, hd3, hd4, _⟩ := findDecade_eq_some hs
    exact ⟨pre, d1, d2, d3, d4, suf, hcs, hd1, hd2, hd3, hd4⟩
  · rintro ⟨pre, d1, d2, d3, d4, suf, hcs, hd1, hd2, hd3, hd4⟩
    unfold extractDecade
    rw [hcs]
    exact findDecade_isSome_of hd1 hd2 hd3 hd4

/-! ## YouTube embed URL: C3 -/

theorem findPattern_isSome_iff {lit : List Char} (hlit : lit ≠ []) {cs : List Char} :
    (findPattern lit cs).isSome = true ↔ ytShapeSpec lit cs := by
  constructor
  · intro h
    obtain ⟨run, hr⟩ := Option.isSome_iff_exists.mp h
    obtain ⟨h1, h2, pre, suf, h3⟩ := findPattern_eq_some hr
    exact ⟨run, h1, h2, pre, suf, h3⟩
  · rintro ⟨vid, h1, h2, pre, suf, h3⟩
    rw [h3]
    exact findPattern_isSome_of hlit h1 h2

/-- C3: for every input string, `getYouTubeEmbedUrl` returns the embed base
followed by the video id exactly when one of the four YouTube URL shapes
occurs in the string, the id being taken from the first of the four patterns
that matches, and returns null when none of them matches. -/
theorem c3_getYouTubeEmbedUrl_correct (url : String) :
    (getYouTubeEmbedUrl url = none ↔
      ¬ ytShapeSpec ytLit1 url.toList ∧ ¬ ytShapeSpec ytLit2 url.toList ∧
      ¬ ytShapeSpec ytLit3 url.toList ∧ ¬ ytShapeSpec ytLit4 url.toList)
  ∧ (∀ s, getYouTubeEmbedUrl url = some s →
      ∃ vid, vid ≠ [] ∧ (∀ c ∈ vid, urlIdChar c = true) ∧
        s = ytEmbedBase ++ String.mk vid ∧
        (ytShapeAt ytLit1 url.toList vid ∨
         (¬ ytShapeSpec ytLit1 url.toList ∧ ytShapeAt ytLit2 url.toList vid) ∨
         (¬ ytShapeSpec ytLit1 url.toList ∧ ¬ ytShapeSpec ytLit2 url.toList ∧
           ytShapeAt ytLit3 url.toList vid) ∨
         (¬ ytShapeSpec ytLit1 url.toList ∧ ¬ ytShapeSpec ytLit2 url.toList ∧
           ¬ ytShapeSpec ytLit3 url.toList ∧ ytShapeAt ytLit4 url.toList vid))) := by
  have e1 : ytLit1 ≠ [] := by decide
  have e2 : ytLit2 ≠ [] := by decide
  have e3 : ytLit3 ≠ [] := by decide
  have e4 : ytLit4 ≠ [] := by decide
  cases hf1 : findPattern ytLit1 url.toList with
  | some v1 =>
    have hspec1 : ytShapeSpec ytLit1 url.toList := by
      obtain ⟨h1, h2, pre, suf, h3⟩ := findPattern_eq_some hf1
      exact ⟨v1, h1, h2, pre, suf, h3⟩
    have hres : getYouTubeEmbedUrl url = some (ytEmbedBase ++ String.mk v1) := by
      unfold getYouTubeEmbedUrl
      rw [hf1]
      rfl
    refine ⟨⟨fun h => absurd (hres ▸ h) (by simp), fun h => absurd hspec1 h.1⟩, ?_⟩
    intro s hs
    rw [hres] at hs
    obtain rfl : ytEmbedBase ++ String.mk v1 = s := Option.some.inj hs
    obtain ⟨h1, h2, pre, suf, h3⟩ := findPattern_eq_some hf1
    exact ⟨v1, h1, h2, rfl, Or.inl ⟨pre, suf, h3⟩⟩
  | none =>
    have hn1 : ¬ ytShapeSpec ytLit1 url.toList := by
      intro hs
      have := (findPattern_isSome_iff e1).mpr hs
      rw [hf1] at this
      simp at this
    cases hf2 : findPattern ytLit2 url.toList with
    | some v2 =>
      have hres : getYouTubeEmbedUrl url = some (ytEmbedBase ++ String.mk v2) := by
        unfold getYouTubeEmbedUrl
        rw [hf1, hf2]
        rfl
      have hspec2 : ytShapeSpec ytLit2 url.toList := by
        obtain ⟨h1, h2, pre, suf, h3⟩ := findPattern_eq_some hf2
        exact ⟨v2, h1, h2, pre, suf, h3⟩
      refine ⟨⟨fun h => absurd (hres ▸ h) (by simp), fun h => absurd hspec2 h.2.1⟩, ?_⟩
      intro s hs
      rw [hres] at hs
      obtain rfl : ytEmbedBase ++ String.mk v2 = s := Option.some.inj hs
      obtain ⟨h1, h2, pre, suf, h3⟩ := findPattern_eq_some hf2
      exact ⟨v2, h1, h2, rfl, Or.inr (Or.inl ⟨hn1, pre, suf, h3⟩)⟩
    | none =>
      have hn2 : ¬ ytShapeSpec ytLit2 url.toList := by
        intro hs
        have := (findPattern_isSome_iff e2).mpr hs
        rw [hf2] at this
        simp at this
      cases hf3 : findPattern ytLit3 url.toList with
      | some v3 =>
        have hres : getYouTubeEmbedUrl url = some (ytEmbedBase ++ String.mk v3) := by
          unfold getYouTubeEmbedUrl
          rw [hf1, hf2, hf3]
          rfl
        have hspec3 : ytShapeSpec ytLit3 url.toList := by
          obtain ⟨h1, h2, pre, suf, h3⟩ := findPattern_eq_some hf3
          exact ⟨v3, h1, h2, pre, suf, h3⟩
        refine ⟨⟨fun h => absurd (hres ▸ h) (by simp), fun h => absurd hspec3 h.2.2.1⟩, ?_⟩
        intro s hs
        rw [hres] at hs
        obtain rfl : ytEmbedBase ++ String.mk v3 = s := Option.some.inj hs
        obtain ⟨h1, h2, pre, suf, h3⟩ := findPattern_eq_some hf3
        exact ⟨v3, h1, h2, rfl, Or.inr (Or.inr (Or.inl ⟨hn1, hn2, pre, suf, h3⟩))⟩
      | none =>
        have hn3 : ¬ ytShapeSpec ytLit3 url.toList := by
          intro hs
          have := (findPattern_isSome_iff e3).mpr hs
          rw [hf3] at this
          simp at this
        cases hf4 : findPattern ytLit4 url.toList with
        | some v4 =>
          have hres : getYouTubeEmbedUrl url = some (ytEmbedBase ++ String.mk v4) := by
            unfold getYouTubeEmbedUrl
            rw [hf1, hf2, hf3, hf4]
            rfl
          have hspec4 : ytShapeSpec ytLit4 url.toList := by
            obtain ⟨h1, h2, pre, suf, h3⟩ := findPattern_eq_some hf4
            exact ⟨v4, h1, h2, pre, suf, h3⟩
          refine ⟨⟨fun h => absurd (hres ▸ h) (by simp), fun h => absurd hspec4 h.2.2.2⟩, ?_⟩
          intro s hs
          rw [hres] at hs
          obtain rfl : ytEmbedBase ++ String.mk v4 = s := Option.some.inj hs
          obtain ⟨h1, h2, pre, suf, h3⟩ := findPattern_eq_some hf4
          exact ⟨v4, h1, h2, rfl, Or.inr (Or.inr (Or.inr ⟨hn1, hn2, hn3, pre, suf, h3⟩))⟩
        | none =>
          have hn4 : ¬ ytShapeSpec ytLit4 url.toList := by
            intro hs
            have := (findPattern_isSome_iff e4).mpr hs
            rw [hf4] at this
            simp at this
          have hres : getYouTubeEmbedUrl url = none := by
            unfold getYouTubeEmbedUrl
            rw [hf1, hf2, hf3, hf4]
            rfl
          refine ⟨⟨fun _ => ⟨hn1, hn2, hn3, hn4⟩, fun _ => hres⟩, ?_⟩
          intro s hs
          rw [hres] at hs
          exact absurd hs (by simp)

/-- Witness for C3 at a concrete youtu.be link. -/
theorem c3_witness :
    ∃ vid, vid ≠ [] ∧ (∀ c ∈ vid, urlIdChar c = true) ∧
      "https://www.youtube.com/embed/dQw4w9WgXcQ" = ytEmbedBase ++ String.mk vid ∧
      (ytShapeAt ytLit1 "https://youtu.be/dQw4w9WgXcQ".toList vid ∨
       (¬ ytShapeSpec ytLit1 "https://youtu.be/dQw4w9WgXcQ".toList ∧
         ytShapeAt ytLit2 "https://youtu.be/dQw4w9WgXcQ".toList vid) ∨
       (¬ ytShapeSpec ytLit1 "https://youtu.be/dQw4w9WgXcQ".toList ∧
         ¬ ytShapeSpec ytLit2 "https://youtu.be/dQw4w9WgXcQ".toList ∧
         ytShapeAt ytLit3 "https://youtu.be/dQw4w9WgXcQ".toList vid) ∨
       (¬ ytShapeSpec ytLit1 "https://youtu.be/dQw4w9WgXcQ".toList ∧
         ¬ ytShapeSpec ytLit2 "https://youtu.be/dQw4w9WgXcQ".toList ∧
         ¬ ytShapeSpec ytLit3 "https://youtu.be/dQw4w9WgXcQ".toList ∧
         ytShapeAt ytLit4 "https://youtu.be/dQw4w9WgXcQ".toList vid)) :=
  (c3_getYouTubeEmbedUrl_correct "https://youtu.be/dQw4w9WgXcQ").2
    "https://www.youtube.com/embed/dQw4w9WgXcQ" (by decide)

/-! ## Google Drive URL: C4 -/

theorem driveFindId_isSome_iff {cs : List Char} :
    (driveFindId cs).isSome = true ↔ driveShapeSpec cs := by
  constructor
  · intro h
    obtain ⟨run, hr⟩ := Option.isSome_iff_exists.mp h
    obtain ⟨ha, hb, lit, hlit, pre, suf, hc⟩ := driveFindId_eq_some hr
    exact ⟨lit, hlit, pre, run, suf, hc, ha, hb⟩
  · rintro ⟨lit, hlit, pre, fid, suf, hcs, hlen, hall⟩
    rw [hcs]
    exact driveFindId_isSome_of hlit hlen hall

/-- C4: `convertGoogleDriveUrl` returns a non-null result exactly when the
string contains `drive.google.com` and a file id of at least 25 characters
from `[a-zA-Z0-9_-]` introduced by `/file/d/`, `id=` or `uc?id=`; the result
is the direct-download URL for images and the preview URL for videos. -/
theorem c4_convertGoogleDriveUrl_correct (url : String) (t : MediaType) :
    (convertGoogleDriveUrl url t = none ↔
      ¬ (strContains url "drive.google.com" = true ∧ driveShapeSpec url.toList))
  ∧ (∀ s, convertGoogleDriveUrl url t = some s →
      strContains url "drive.google.com" = true ∧
      ∃ fid, 25 ≤ fid.length ∧ (∀ c ∈ fid, urlIdChar c = true) ∧
        (∃ lit, (lit = fileLit ∨ lit = idEqLit ∨ lit = ucLit) ∧
          ∃ pre suf, url.toList = pre ++ lit ++ fid ++ suf) ∧
        (t = MediaType.image → s = driveDownloadBase ++ String.mk fid) ∧
        (t = MediaType.video → s = drivePreviewBase ++ String.mk fid ++ "/preview")) := by
  cases hf : driveFindId url.toList with
  | none =>
    have hres : convertGoogleDriveUrl url t = none := by
      unfold convertGoogleDriveUrl
      rw [hf]
    refine ⟨⟨fun _ => ?_, fun _ => hres⟩, fun s hs => ?_⟩
    · rintro ⟨_, hshape⟩
      have := driveFindId_isSome_iff.mpr hshape
      rw [hf] at this
      simp at this
    · rw [hres] at hs
      exact absurd hs (by simp)
  | some fid =>
    have hshape : driveShapeSpec url.toList := by
      refine driveFindId_isSome_iff.mp ?_
      rw [hf]
      rfl
    by_cases hc : strContains url "drive.google.com" = true
    · obtain ⟨ha, hb, lit, hlit, pre, suf, hdec⟩ := driveFindId_eq_some hf
      cases t with
      | image =>
        have hres : convertGoogleDriveUrl url MediaType.image =
            some (driveDownloadBase ++ String.mk fid) := by
          unfold convertGoogleDriveUrl
          rw [hf]
          simp [hc]
        refine ⟨⟨fun h => absurd (hres ▸ h) (by simp), fun h => absurd ⟨hc, hshape⟩ h⟩, ?_⟩
        intro s hs
        rw [hres] at hs
        obtain rfl : driveDownloadBase ++ String.mk fid = s := Option.some.inj hs
        exact ⟨hc, fid, ha, hb, ⟨lit, hlit, pre, suf, hdec⟩, fun _ => rfl,
          fun h => absurd h (by simp)⟩
      | video =>
        have hres : convertGoogleDriveUrl url MediaType.video =
            some (drivePreviewBase ++ String.mk fid ++ "/preview") := by
          unfold convertGoogleDriveUrl
          rw [hf]
          simp [hc]
        refine ⟨⟨fun h => absurd (hres ▸ h) (by simp), fun h => absurd ⟨hc, hshape⟩ h⟩, ?_⟩
        intro s hs
        rw [hres] at hs
        obtain rfl : drivePreviewBase ++ String.mk fid ++ "/preview" = s := Option.some.inj hs
        exact ⟨hc, fid, ha, hb, ⟨lit, hlit, pre, suf, hdec⟩, fun h => absurd h (by simp),
          fun _ => rfl⟩
    · have hres : convertGoogleDriveUrl url t = none := by
        unfold convertGoogleDriveUrl
        rw [hf]
        simp [hc]
      refine ⟨⟨fun _ => ?_, fun _ => hres⟩, fun s hs => ?_⟩
      · rintro ⟨hcc, _⟩
        exact hc hcc
      · rw [hres] at hs
        exact absurd hs (by simp)

/-- Witness for C4 at a concrete Drive file URL. -/
theorem c4_witness :
    strContains "https://drive.google.com/file/d/abcdefghijklmnopqrstuvwxy/view"
      "drive.google.com" = true ∧
    ∃ fid, 25 ≤ fid.length ∧ (∀ c ∈ fid, urlIdChar c = true) ∧
      (∃ lit, (lit = fileLit ∨ lit = idEqLit ∨ lit = ucLit) ∧
        ∃ pre suf,
          "https://drive.google.com/file/d/abcdefghijklmnopqrstuvwxy/view".toList =
            pre ++ lit ++ fid ++ suf) ∧
      (MediaType.image = MediaType.image →
        "https://drive.google.com/uc?export=download&id=abcdefghijklmnopqrstuvwxy" =
          driveDownloadBase ++ String.mk fid) ∧
      (MediaType.image = MediaType.video →
        "https://drive.google.com/uc?export=download&id=abcdefghijklmnopqrstuvwxy" =
          drivePreviewBase ++ String.mk fid ++ "/preview") :=
  (c4_convertGoogleDriveUrl_correct
      "https://drive.google.com/file/d/abcdefghijklmnopqrstuvwxy/view" MediaType.image).2
    "https://drive.google.com/uc?export=download&id=abcdefghijklmnopqrstuvwxy" (by decide)

/-! ## Idempotence of the normalizers: C9 -/

theorem driveFindId_downloadUrl {fid : List Char} (h25 : 25 ≤ fid.length)
    (hall : ∀ c ∈ fid, urlIdChar c = true) :
    driveFindId ((driveDownloadBase ++ String.mk fid).toList) = some fid := by
  have hrun : fid.takeWhile urlIdChar = fid := List.takeWhile_eq_self_iff.mpr hall
  have key : driveFindId ('i' :: 'd' :: '=' :: fid) = some fid := by
    rw [driveFindId]
    rw [show driveTryAt fileLit ('i' :: 'd' :: '=' :: fid) = none from rfl]
    rw [show driveTryAt idEqLit ('i' :: 'd' :: '=' :: fid) =
        (if 25 ≤ (fid.takeWhile urlIdChar).length then
          some (fid.takeWhile urlIdChar) else none) from rfl]
    rw [hrun, if_pos h25]
    simp
  exact key

theorem driveFindId_previewUrl {fid : List Char} (h25 : 25 ≤ fid.length)
    (hall : ∀ c ∈ fid, urlIdChar c = true) :
    driveFindId ((drivePreviewBase ++ String.mk fid ++ "/preview").toList) = some fid := by
  have htw : (fid ++ "/preview".toList).takeWhile urlIdChar = fid := by
    rw [List.takeWhile_append_of_pos hall]
    rw [show ("/preview".toList : List Char).takeWhile urlIdChar = [] from rfl]
    simp
  have key : driveFindId
      ('/' :: 'f' :: 'i' :: 'l' :: 'e' :: '/' :: 'd' :: '/' :: (fid ++ "/preview".toList)) =
        some fid := by
    rw [driveFindId]
    rw [show driveTryAt fileLit
        ('/' :: 'f' :: 'i' :: 'l' :: 'e' :: '/' :: 'd' :: '/' :: (fid ++ "/preview".toList)) =
        (if 25 ≤ ((fid ++ "/preview".toList).takeWhile urlIdChar).length then
          some ((fid ++ "/preview".toList).takeWhile urlIdChar) else none) from rfl]
    rw [htw, if_pos h25]
    simp
  exact key

theorem findPattern_embedUrl_1 {vid : List Char} (hall : ∀ c ∈ vid, urlIdChar c = true) :
    findPattern ytLit1 ((ytEmbedBase ++ String.mk vid).toList) = none := by
  have key : findPattern ytLit1 vid = none :=
    findPattern_none_of_allId ytLit1 vid '.' (by decide) (by decide) hall
  exact key

theorem findPattern_embedUrl_2 {vid : List Char} (hall : ∀ c ∈ vid, urlIdChar c = true) :
    findPattern ytLit2 ((ytEmbedBase ++ String.mk vid).toList) = none := by
  have key : findPattern ytLit2 vid = none :=
    findPattern_none_of_allId ytLit2 vid '.' (by decide) (by decide) hall
  exact key

theorem findPattern_embedUrl_3 {vid : List Char} (hne : vid ≠ [])
    (hall : ∀ c ∈ vid, urlIdChar c = true) :
    findPattern ytLit3 ((ytEmbedBase ++ String.mk vid).toList) = some vid := by
  have hrun : vid.takeWhile urlIdChar = vid := List.takeWhile_eq_self_iff.mpr hall
  have key : findPattern ytLit3 (ytLit3 ++ vid) = some vid := by
    have hfire := @findPattern_fire ytLit3 (by decide) vid (by rw [hrun]; exact hne)
    rw [hrun] at hfire
    exact hfire
  exact key

/-- C9: both URL normalizers are idempotent on their own outputs: feeding a
returned URL back in returns the same URL again. -/
theorem c9_normalizers_idempotent :
    (∀ url t r, convertGoogleDriveUrl url t = some r → convertGoogleDriveUrl r t = some r)
  ∧ (∀ url r, getYouTubeEmbedUrl url = some r → getYouTubeEmbedUrl r = some r) := by
  constructor
  · intro url t r h
    unfold convertGoogleDriveUrl at h
    cases hf : driveFindId url.toList with
    | none =>
      rw [hf] at h
      exact absurd h (by simp)
    | some fid =>
      rw [hf] at h
      by_cases hc : strContains url "drive.google.com" = true
      · obtain ⟨h25, hall, _⟩ := driveFindId_eq_some hf
        cases t with
        | image =>
          simp only [hc, if_true] at h
          obtain rfl : driveDownloadBase ++ String.mk fid = r := by simpa using h
          unfold convertGoogleDriveUrl
          rw [driveFindId_downloadUrl h25 hall]
          rw [show strContains (driveDownloadBase ++ String.mk fid) "drive.google.com" =
            true from rfl]
          simp
        | video =>
          simp only [hc, if_true] at h
          obtain rfl : drivePreviewBase ++ String.mk fid ++ "/preview" = r := by simpa using h
          unfold convertGoogleDriveUrl
          rw [driveFindId_previewUrl h25 hall]
          rw [show strContains (drivePreviewBase ++ String.mk fid ++ "/preview")
            "drive.google.com" = true from rfl]
          simp
      · simp only [hc] at h
        simp at h
  · intro url r h
    unfold getYouTubeEmbedUrl at h
    cases hh : (findPattern ytLit1 url.toList <|> findPattern ytLit2 url.toList <|>
        findPattern ytLit3 url.toList <|> findPattern ytLit4 url.toList) with
    | none =>
      rw [hh] at h
      exact absurd h (by simp)
    | some vid =>
      rw [hh] at h
      obtain rfl : ytEmbedBase ++ String.mk vid = r := by simpa using h
      have hvid : vid ≠ [] ∧ ∀ c ∈ vid, urlIdChar c = true := by
        cases h1 : findPattern ytLit1 url.toList with
        | some v =>
          rw [h1, Option.some_orElse] at hh
          obtain rfl : v = vid := Option.some.inj hh
          obtain ⟨ha, hb, _⟩ := findPattern_eq_some h1
          exact ⟨ha, hb⟩
        | none =>
          rw [h1, Option.none_orElse] at hh
          cases h2 : findPattern ytLit2 url.toList with
          | some v =>
            rw [h2, Option.some_orElse] at hh
            obtain rfl : v = vid := Option.some.inj hh
            obtain ⟨ha, hb, _⟩ := findPattern_eq_some h2
            exact ⟨ha, hb⟩
          | none =>
            rw [h2, Option.none_orElse] at hh
            cases h3 : findPattern ytLit3 url.toList with
            | some v =>
              rw [h3, Option.some_orElse] at hh
              obtain rfl : v = vid := Option.some.inj hh
              obtain ⟨ha, hb, _⟩ := findPattern_eq_some h3
              exact ⟨ha, hb⟩
            | none =>
              rw [h3, Option.none_orElse] at hh
              obtain ⟨ha, hb, _⟩ := findPattern_eq_some hh
              exact ⟨ha, hb⟩
      obtain ⟨hne, hall⟩ := hvid
      unfold getYouTubeEmbedUrl
      rw [findPattern_embedUrl_1 hall, findPattern_embedUrl_2 hall,
        findPattern_embedUrl_3 hne hall]
      simp

/-- Witness for C9 at concrete Drive and YouTube URLs. -/
theorem c9_witness :
    convertGoogleDriveUrl
        "https://drive.google.com/uc?export=download&id=abcdefghijklmnopqrstuvwxy"
        MediaType.image =
      some "https://drive.google.com/uc?export=download&id=abcdefghijklmnopqrstuvwxy" ∧
    getYouTubeEmbedUrl "https://www.youtube.com/embed/dQw4w9WgXcQ" =
      some "https://www.youtube.com/embed/dQw4w9WgXcQ" :=
  ⟨c9_normalizers_idempotent.1
      "https://drive.google.com/file/d/abcdefghijklmnopqrstuvwxy/view" MediaType.image
      "https://drive.google.com/uc?export=download&id=abcdefghijklmnopqrstuvwxy" (by decide),
   c9_normalizers_idempotent.2 "https://youtu.be/dQw4w9WgXcQ"
      "https://www.youtube.com/embed/dQw4w9WgXcQ" (by decide)⟩

/-! ## Retry loop: C1 -/

theorem callGeminiLoop_succ (outcomes : Nat → GenOutcome) (attempt fuel : Nat) :
    callGeminiLoop outcomes attempt (fuel + 1) =
      match outcomes attempt with
      | GenOutcome.success r => ⟨Except.ok r, 1, []⟩
      | GenOutcome.failure msg =>
        if strContains msg "429" then
          ⟨Except.error ⟨rateLimitMsg, GeminiErrorType.RATE_LIMIT⟩, 1, []⟩
        else if isInternalMsg msg && decide (attempt < maxRetries) then
          ⟨(callGeminiLoop outcomes (attempt + 1) fuel).result,
            (callGeminiLoop outcomes (attempt + 1) fuel).attemptsMade + 1,
            (initialDelay * 2 ^ (attempt - 1)) ::
              (callGeminiLoop outcomes (attempt + 1) fuel).delays⟩
        else if isInternalMsg msg then
          ⟨Except.error ⟨serverErrorMsg, GeminiErrorType.SERVER_ERROR⟩, 1, []⟩
        else ⟨Except.error ⟨unknownMsg msg, GeminiErrorType.UNKNOWN⟩, 1, []⟩ := rfl

theorem callGeminiLoop_attempts_le (outcomes : Nat → GenOutcome) (fuel : Nat) :
    ∀ attempt, (callGeminiLoop outcomes attempt fuel).attemptsMade ≤ fuel := by
  induction fuel with
  | zero => intro attempt; simp [callGeminiLoop]
  | succ f ih =>
    intro attempt
    rw [callGeminiLoop_succ]
    cases ho : outcomes attempt with
    | success r => simp
    | failure msg =>
      by_cases b : strContains msg "429" = true
      · simp [b]
      · by_cases bi : (isInternalMsg msg && decide (attempt < maxRetries)) = true
        · have hrec := ih (attempt + 1)
          simp [b, bi]
          omega
        · by_cases bj : isInternalMsg msg = true
          · have hna : ¬(attempt < maxRetries) := by
              intro hlt
              exact bi (by simp [bj, hlt])
            simp [b, bj, hna]
          · simp [b, bi, bj]

/-- C1: for every sequence of outcomes of the external call,
`callGeminiWithRetry` behaves exactly as the claim describes (captured by
`retrySpecFromClaim`): at most 3 attempts; an immediate RATE_LIMIT on a
message containing 429; a retry with delay `1000 * 2 ^ (attempt - 1)` ms on
an internal-error message while fewer than 3 attempts have been made, with
SERVER_ERROR on a third such failure; UNKNOWN immediately on any other
error; and a success returns that response. -/
theorem c1_callGeminiWithRetry_spec (outcomes : Nat → GenOutcome) :
    callGeminiWithRetry outcomes = retrySpecFromClaim outcomes ∧
    (callGeminiWithRetry outcomes).attemptsMade ≤ 3 := by
  constructor
  · cases h1 : outcomes 1 with
    | success r =>
      simp [callGeminiWithRetry, callGeminiLoop, retrySpecFromClaim, maxRetries, h1]
    | failure m1 =>
      by_cases b1 : strContains m1 "429" = true
      · simp [callGeminiWithRetry, callGeminiLoop, retrySpecFromClaim, maxRetries, h1, b1]
      · by_cases i1 : isInternalMsg m1 = true
        · cases h2 : outcomes 2 with
          | success r2 =>
            simp [callGeminiWithRetry, callGeminiLoop, retrySpecFromClaim, maxRetries,
              initialDelay, h1, b1, i1, h2]
          | failure m2 =>
            by_cases b2 : strContains m2 "429" = true
            · simp [callGeminiWithRetry, callGeminiLoop, retrySpecFromClaim, maxRetries,
                initialDelay, h1, b1, i1, h2, b2]
            · by_cases i2 : isInternalMsg m2 = true
              · cases h3 : outcomes 3 with
                | success r3 =>
                  simp [callGeminiWithRetry, callGeminiLoop, retrySpecFromClaim, maxRetries,
                    initialDelay, h1, b1, i1, h2, b2, i2, h3]
                | failure m3 =>
                  by_cases b3 : strContains m3 "429" = true
                  · simp [callGeminiWithRetry, callGeminiLoop, retrySpecFromClaim, maxRetries,
                      initialDelay, h1, b1, i1, h2, b2, i2, h3, b3]
                  · by_cases i3 : isInternalMsg m3 = true
                    · simp [callGeminiWithRetry, callGeminiLoop, retrySpecFromClaim, maxRetries,
                        initialDelay, h1, b1, i1, h2, b2, i2, h3, b3, i3]
                    · simp [callGeminiWithRetry, callGeminiLoop, retrySpecFromClaim, maxRetries,
                        initialDelay, h1, b1, i1, h2, b2, i2, h3, b3, i3]
              · simp [callGeminiWithRetry, callGeminiLoop, retrySpecFromClaim, maxRetries,
                  initialDelay, h1, b1, i1, h2, b2, i2]
        · simp [callGeminiWithRetry, callGeminiLoop, retrySpecFromClaim, maxRetries, h1, b1, i1]
  · exact callGeminiLoop_attempts_le outcomes 3 1

/-! ## Decade image generation fallback: C2 -/

/-- C2: on a well-formed data URL, `generateDecadeImage` attempts the
original prompt first; it makes exactly one fallback attempt (with the prompt
built by `getFallbackPrompt` from the extracted decade) if and only if the
first attempt fails BLOCKED and a decade matching `(\d{4}s)` occurs in the
prompt; a BLOCKED failure without an extractable decade re-throws the
original error, a non-BLOCKED failure is re-thrown without a fallback, and a
failing fallback throws the fallback's error. -/
theorem c2_generateDecadeImage_fallback (env : String → Nat → GenOutcome)
    (imageDataUrl prompt : String) (hok : (parseImageDataUrl imageDataUrl).isSome = true) :
    ((generateDecadeImage env imageDataUrl prompt).promptsTried.head? = some prompt)
  ∧ ((extractDecade prompt).isSome = true ↔ hasDecadeSpec prompt)
  ∧ (∀ s, attemptOnce env prompt = Except.ok s →
      generateDecadeImage env imageDataUrl prompt = ⟨Except.ok s, [prompt]⟩)
  ∧ (∀ e, attemptOnce env prompt = Except.error e → e.type ≠ GeminiErrorType.BLOCKED →
      generateDecadeImage env imageDataUrl prompt = ⟨Except.error (AppError.gemini e), [prompt]⟩)
  ∧ (∀ e, attemptOnce env prompt = Except.error e → e.type = GeminiErrorType.BLOCKED →
      extractDecade prompt = none →
      generateDecadeImage env imageDataUrl prompt = ⟨Except.error (AppError.gemini e), [prompt]⟩)
  ∧ (∀ e d, attemptOnce env prompt = Except.error e → e.type = GeminiErrorType.BLOCKED →
      extractDecade prompt = some d →
      (generateDecadeImage env imageDataUrl prompt).promptsTried = [prompt, getFallbackPrompt d]
      ∧ (∀ s2, attemptOnce env (getFallbackPrompt d) = Except.ok s2 →
          (generateDecadeImage env imageDataUrl prompt).result = Except.ok s2)
      ∧ (∀ e2, attemptOnce env (getFallbackPrompt d) = Except.error e2 →
          (generateDecadeImage env imageDataUrl prompt).result =
            Except.error (AppError.gemini e2)))
  ∧ ((generateDecadeImage env imageDataUrl prompt).promptsTried.length = 2 ↔
      ((∃ e, attemptOnce env prompt = Except.error e ∧ e.type = GeminiErrorType.BLOCKED) ∧
        (extractDecade prompt).isSome = true)) := by
  obtain ⟨pv, hv⟩ := Option.isSome_iff_exists.mp hok
  cases ha : attemptOnce env prompt with
  | ok s =>
    have hres : generateDecadeImage env imageDataUrl prompt = ⟨Except.ok s, [prompt]⟩ := by
      unfold generateDecadeImage
      simp [hv, ha]
    refine ⟨by simp [hres], @extractDecade_isSome_iff prompt, ?_, ?_, ?_, ?_, ?_⟩
    · intro s' h'
      obtain rfl : s = s' := Except.ok.inj h'
      exact hres
    · intro e' he' _
      exact absurd he' (by simp)
    · intro e' he' _ _
      exact absurd he' (by simp)
    · intro e' d' he' _ _
      exact absurd he' (by simp)
    · rw [hres]
      constructor
      · intro hl
        exact absurd hl (by simp)
      · rintro ⟨⟨e', he', _⟩, _⟩
        exact absurd he' (by simp)
  | error e =>
    by_cases ht : e.type = GeminiErrorType.BLOCKED
    · cases hd : extractDecade prompt with
      | none =>
        have hres : generateDecadeImage env imageDataUrl prompt =
            ⟨Except.error (AppError.gemini e), [prompt]⟩ := by
          unfold generateDecadeImage
          simp [hv, ha, ht, hd]
        refine ⟨by simp [hres], by rw [← hd]; exact @extractDecade_isSome_iff prompt,
          ?_, ?_, ?_, ?_, ?_⟩
        · intro s' h'
          exact absurd h' (by simp)
        · intro e' he' hne
          obtain rfl : e = e' := Except.error.inj he'
          exact absurd ht hne
        · intro e' he' _ _
          obtain rfl : e = e' := Except.error.inj he'
          exact hres
        · intro e' d' he' _ hd'
          exact absurd hd' (by simp)
        · rw [hres]
          constructor
          · intro hl
            exact absurd hl (by simp)
          · rintro ⟨_, hsome⟩
            exact absurd hsome (by simp)
      | some d =>
        cases hb : attemptOnce env (getFallbackPrompt d) with
        | ok s2 =>
          have hres : generateDecadeImage env imageDataUrl prompt =
              ⟨Except.ok s2, [prompt, getFallbackPrompt d]⟩ := by
            unfold generateDecadeImage
            simp [hv, ha, ht, hd, hb]
          refine ⟨by simp [hres], by rw [← hd]; exact @extractDecade_isSome_iff prompt,
            ?_, ?_, ?_, ?_, ?_⟩
          · intro s' h'
            exact absurd h' (by simp)
          · intro e' he' hne
            obtain rfl : e = e' := Except.error.inj he'
            exact absurd ht hne
          · intro e' he' _ hd'
            exact absurd hd' (by simp)
          · intro e' d' he' _ hd'
            obtain rfl : d = d' := Option.some.inj hd'
            refine ⟨by simp [hres], ?_, ?_⟩
            · intro s2' hb'
              rw [hb] at hb'
              obtain rfl : s2 = s2' := Except.ok.inj hb'
              rw [hres]
            · intro e2' hb'
              rw [hb] at hb'
              exact absurd hb' (by simp)
          · rw [hres]
            constructor
            · intro _
              exact ⟨⟨e, rfl, ht⟩, rfl⟩
            · intro _
              rfl
        | error e2 =>
          have hres : generateDecadeImage env imageDataUrl prompt =
              ⟨Except.error (AppError.gemini e2), [prompt, getFallbackPrompt d]⟩ := by
            unfold generateDecadeImage
            simp [hv, ha, ht, hd, hb]
          refine ⟨by simp [hres], by rw [← hd]; exact @extractDecade_isSome_iff prompt,
            ?_, ?_, ?_, ?_, ?_⟩
          · intro s' h'
            exact absurd h' (by simp)
          · intro e' he' hne
            obtain rfl : e = e' := Except.error.inj he'
            exact absurd ht hne
          · intro e' he' _ hd'
            exact absurd hd' (by simp)
          · intro e' d' he' _ hd'
            obtain rfl : d = d' := Option.some.inj hd'
            refine ⟨by simp [hres], ?_, ?_⟩
            · intro s2' hb'
              rw [hb] at hb'
              exact absurd hb' (by simp)
            · intro e2' hb'
              rw [hb] at hb'
              obtain rfl : e2 = e2' := Except.error.inj hb'
              rw [hres]
          · rw [hres]
            constructor
            · intro _
              exact ⟨⟨e, rfl, ht⟩, rfl⟩
            · intro _
              rfl
    · have hres : generateDecadeImage env imageDataUrl prompt =
          ⟨Except.error (AppError.gemini e), [prompt]⟩ := by
        unfold generateDecadeImage
        simp [hv, ha, ht]
      refine ⟨by simp [hres], @extractDecade_isSome_iff prompt, ?_, ?_, ?_, ?_, ?_⟩
      · intro s' h'
        exact absurd h' (by simp)
      · intro e' he' _
        obtain rfl : e = e' := Except.error.inj he'
        exact hres
      · intro e' he' ht' _
        obtain rfl : e = e' := Except.error.inj he'
        exact absurd ht' ht
      · intro e' d' he' ht' _
        obtain rfl : e = e' := Except.error.inj he'
        exact absurd ht' ht
      · rw [hres]
        constructor
        · intro hl
          exact absurd hl (by simp)
        · rintro ⟨⟨e', he', ht'⟩, _⟩
          obtain rfl : e = e' := Except.error.inj he'
          exact absurd ht' ht

/-- Witness for C2 at a concrete data URL and decade prompt. -/
theorem c2_witness :
    (parseImageDataUrl wDataUrl).isSome = true ∧
    (generateDecadeImage wEnvNoImage wDataUrl "Portrait in the 1950s").promptsTried.head? =
      some "Portrait in the 1950s" :=
  ⟨by decide,
    (c2_generateDecadeImage_fallback wEnvNoImage wDataUrl "Portrait in the 1950s" (by decide)).1⟩

/-! ## Custom-prompt image generation: C5 -/

/-- C5: `generateImageFromPrompt` throws on a malformed data URL; any value
it returns is a `data:<mime>;base64,<data>` string; and when the wrapped call
yields a response, a SAFETY block raises BLOCKED, the first inline-data part
is returned as a data URL when present, and BLOCKED is raised when no
inline-data part exists. -/
theorem c5_generateImageFromPrompt_spec (env : String → Nat → GenOutcome)
    (imageDataUrl prompt : String) :
    (parseImageDataUrl imageDataUrl = none →
      generateImageFromPrompt env imageDataUrl prompt = Except.error AppError.invalidDataUrl)
  ∧ (∀ s, generateImageFromPrompt env imageDataUrl prompt = Except.ok s →
      ∃ m d, s = "data:" ++ m ++ ";base64," ++ d)
  ∧ ((parseImageDataUrl imageDataUrl).isSome = true →
      ∀ r, (callGeminiWithRetry (env prompt)).result = Except.ok r →
      (safetyBlocked r = true →
        generateImageFromPrompt env imageDataUrl prompt =
          Except.error (AppError.gemini ⟨safetyBlockedMsg, GeminiErrorType.BLOCKED⟩))
    ∧ (safetyBlocked r = false → ∀ d, firstInlineData r = some d →
        generateImageFromPrompt env imageDataUrl prompt =
          Except.ok ("data:" ++ d.mimeType ++ ";base64," ++ d.data))
    ∧ (safetyBlocked r = false → firstInlineData r = none →
        generateImageFromPrompt env imageDataUrl prompt =
          Except.error (AppError.gemini ⟨noImageMsg, GeminiErrorType.BLOCKED⟩))
    ∧ (∀ pt, firstInlinePart r = some pt →
        pt.inlineData.isSome = true ∧
        ∃ c ps, r.candidates.head? = some c ∧ c.parts = some ps ∧
          ∃ pre suf, ps = pre ++ pt :: suf ∧ ∀ q ∈ pre, q.inlineData = none)) := by
  refine ⟨?_, ?_, ?_⟩
  · intro hp
    unfold generateImageFromPrompt
    rw [hp]
  · intro s hs
    unfold generateImageFromPrompt at hs
    cases hp : parseImageDataUrl imageDataUrl with
    | none => rw [hp] at hs; simp at hs
    | some v =>
      rw [hp] at hs
      cases ha : attemptOnce env prompt with
      | error e => rw [ha] at hs; simp at hs
      | ok s0 =>
        rw [ha] at hs
        simp at hs
        subst hs
        unfold attemptOnce at ha
        cases hr : (callGeminiWithRetry (env prompt)).result with
        | error e => rw [hr] at ha; simp at ha
        | ok r =>
          rw [hr] at ha
          simp only [] at ha
          unfold processGeminiResponse at ha
          by_cases hsb : safetyBlocked r = true
          · rw [if_pos hsb] at ha
            exact absurd ha (by simp)
          · rw [if_neg hsb] at ha
            cases hfp : firstInlinePart r with
            | none => rw [hfp] at ha; simp at ha
            | some pt =>
              rw [hfp] at ha
              simp at ha
              cases hid : pt.inlineData with
              | none => rw [hid] at ha; simp at ha
              | some dta =>
                rw [hid] at ha
                simp at ha
                exact ⟨dta.mimeType, dta.data, ha.symm⟩
  · intro hps r hr
    obtain ⟨pv, hp⟩ := Option.isSome_iff_exists.mp hps
    refine ⟨?_, ?_, ?_, ?_⟩
    · intro hsb
      have hproc : processGeminiResponse r =
          Except.error ⟨safetyBlockedMsg, GeminiErrorType.BLOCKED⟩ := by
        unfold processGeminiResponse
        rw [if_pos hsb]
      have ha : attemptOnce env prompt =
          Except.error ⟨safetyBlockedMsg, GeminiErrorType.BLOCKED⟩ := by
        unfold attemptOnce
        rw [hr]
        simpa using hproc
      unfold generateImageFromPrompt
      simp [hp, ha]
    · intro hsb d hd
      obtain ⟨pt, hpt, hptd⟩ := Option.bind_eq_some.mp hd
      have hproc : processGeminiResponse r =
          Except.ok ("data:" ++ d.mimeType ++ ";base64," ++ d.data) := by
        unfold processGeminiResponse
        rw [if_neg (by simp [hsb])]
        simp [hpt, hptd]
      have ha : attemptOnce env prompt =
          Except.ok ("data:" ++ d.mimeType ++ ";base64," ++ d.data) := by
        unfold attemptOnce
        rw [hr]
        simpa using hproc
      unfold generateImageFromPrompt
      simp [hp, ha]
    · intro hsb hd
      unfold firstInlineData at hd
      have hproc : processGeminiResponse r =
          Except.error ⟨noImageMsg, GeminiErrorType.BLOCKED⟩ := by
        unfold processGeminiResponse
        rw [if_neg (by simp [hsb])]
        cases hfp : firstInlinePart r with
        | none => rfl
        | some pt =>
          rw [hfp] at hd
          simp only [Option.some_bind] at hd
          simp [hd]
      have ha : attemptOnce env prompt =
          Except.error ⟨noImageMsg, GeminiErrorType.BLOCKED⟩ := by
        unfold attemptOnce
        rw [hr]
        simpa using hproc
      unfold generateImageFromPrompt
      simp [hp, ha]
    · intro pt hpt
      unfold firstInlinePart at hpt
      cases hc : r.candidates.head? with
      | none => rw [hc] at hpt; simp at hpt
      | some c =>
        rw [hc] at hpt
        simp only [Option.some.injEq] at hpt ⊢
        cases hcp : c.parts with
        | none => rw [hcp] at hpt; simp at hpt
        | some ps =>
          rw [hcp] at hpt
          simp only [] at hpt
          obtain ⟨hpred, pre, suf, hps2, hall⟩ := List.find?_eq_some.mp hpt
          refine ⟨by simpa using hpred, c, ps, rfl, hcp, pre, suf, hps2, ?_⟩
          intro q hq
          have hq2 := hall q hq
          cases hqq : q.inlineData with
          | none => rfl
          | some dd => rw [hqq] at hq2; simp at hq2

/-- Witness for C5: a response with an inline part yields its data URL. -/
theorem c5_witness :
    generateImageFromPrompt wEnvInline wDataUrl "any prompt" =
      Except.ok ("data:" ++ "image/png" ++ ";base64," ++ "QUJD") :=
  ((c5_generateImageFromPrompt_spec wEnvInline wDataUrl "any prompt").2.2 (by decide)
      wRespInline rfl).2.1 (by decide) ⟨"image/png", "QUJD"⟩ (by decide)

/-! ## Admin list updates: C6 -/

/-- C6: the admin update rewrites exactly the entries whose id equals the
edited item's id, preserving length and order; confirm-delete removes
exactly the entries with the target id from the list selected by the target
type and leaves the other list (and the order of survivors) unchanged. -/
theorem c6_admin_update_delete_frame :
    (∀ (item : CollectionItem) (prev : List CollectionItem),
      (handleUpdateImage item prev).length = prev.length
      ∧ ∀ k, k < prev.length →
          ∃ x, prev[k]? = some x ∧
            (handleUpdateImage item prev)[k]? =
              some (if x.id = item.id then item else x))
  ∧ (∀ (did : ItemId) (s : AdminListsState),
      (handleConfirmDelete (some ⟨MediaType.image, did⟩) s).videos = s.videos
      ∧ (∀ x, x ∈ (handleConfirmDelete (some ⟨MediaType.image, did⟩) s).collection ↔
          (x ∈ s.collection ∧ x.id ≠ did))
      ∧ (handleConfirmDelete (some ⟨MediaType.image, did⟩) s).collection.Sublist s.collection)
  ∧ (∀ (did : ItemId) (s : AdminListsState),
      (handleConfirmDelete (some ⟨MediaType.video, did⟩) s).collection = s.collection
      ∧ (∀ x, x ∈ (handleConfirmDelete (some ⟨MediaType.video, did⟩) s).videos ↔
          (x ∈ s.videos ∧ x.id ≠ did))
      ∧ (handleConfirmDelete (some ⟨MediaType.video, did⟩) s).videos.Sublist s.videos) := by
  refine ⟨?_, ?_, ?_⟩
  · intro item prev
    refine ⟨by simp [handleUpdateImage], ?_⟩
    intro k hk
    refine ⟨prev[k], List.getElem?_eq_getElem hk, ?_⟩
    simp [handleUpdateImage, List.getElem?_eq_getElem hk]
  · intro did s
    refine ⟨rfl, ?_, ?_⟩
    · intro x
      simp [handleConfirmDelete, List.mem_filter]
    · exact List.filter_sublist _
  · intro did s
    refine ⟨rfl, ?_, ?_⟩
    · intro x
      simp [handleConfirmDelete, List.mem_filter]
    · exact List.filter_sublist _

/-- Witness for C6 on concrete two-element lists. -/
theorem c6_witness :
    (0 : Nat) < [CollectionItem.mk (Sum.inl 1) "u1" "p1",
      CollectionItem.mk (Sum.inl 2) "u2" "p2"].length ∧
    ∃ x, [CollectionItem.mk (Sum.inl 1) "u1" "p1",
        CollectionItem.mk (Sum.inl 2) "u2" "p2"][0]? = some x ∧
      (handleUpdateImage (CollectionItem.mk (Sum.inl 1) "u1new" "p1new")
        [CollectionItem.mk (Sum.inl 1) "u1" "p1",
          CollectionItem.mk (Sum.inl 2) "u2" "p2"])[0]? =
        some (if x.id = (CollectionItem.mk (Sum.inl 1) "u1new" "p1new").id then
          CollectionItem.mk (Sum.inl 1) "u1new" "p1new" else x) :=
  ⟨by decide,
    (c6_admin_update_delete_frame.1 (CollectionItem.mk (Sum.inl 1) "u1new" "p1new")
      [CollectionItem.mk (Sum.inl 1) "u1" "p1",
        CollectionItem.mk (Sum.inl 2) "u2" "p2"]).2 0 (by decide)⟩

/-! ## Login form: C7 -/

/-- C7: the login submit invokes `onLoginSuccess` exactly when the password
is the hard-coded `Raju`; any other non-empty password sets the failure
message; in both cases the password field is cleared. -/
theorem c7_login_password_check (s : LoginState) :
    ((handleSubmit s).2 = true ↔ s.password = "Raju")
  ∧ (s.password ≠ "Raju" → s.password ≠ "" → (handleSubmit s).1.error = incorrectPasswordMsg)
  ∧ (handleSubmit s).1.password = "" := by
  unfold handleSubmit
  by_cases h : s.password = "Raju"
  · simp [h]
  · simp [h]

/-- Witness for C7 at a concrete wrong password. -/
theorem c7_witness :
    (handleSubmit ⟨"wrong", "", false⟩).1.error = incorrectPasswordMsg :=
  (c7_login_password_check ⟨"wrong", "", false⟩).2.1 (by decide) (by decide)

/-! ## Initial data fetch: C8 -/

/-- C8: when either fetch rejects or returns a non-ok response, the app
falls back to the built-in sample data and sets the error banner; when both
succeed it installs the fetched data and clears the error. -/
theorem c8_fetchData_fallback (imagesRes : FetchResult (List CollectionItem))
    (videosRes : FetchResult (List VideoItem)) :
    (∀ imgs vids, imagesRes = FetchResult.response true imgs →
      videosRes = FetchResult.response true vids →
      fetchData imagesRes videosRes = AppDataState.mk imgs vids none)
  ∧ ((imagesRes = FetchResult.rejected ∨ videosRes = FetchResult.rejected ∨
      (∃ b, imagesRes = FetchResult.response false b) ∨
      (∃ b, videosRes = FetchResult.response false b)) →
      fetchData imagesRes videosRes =
        AppDataState.mk sampleCollectionItems sampleVideoItems (some fetchFailedMsg)) := by
  constructor
  · rintro imgs vids rfl rfl
    rfl
  · intro h
    rcases h with h | h | ⟨b, h⟩ | ⟨b, h⟩
    · subst h
      cases videosRes with
      | rejected => rfl
      | response ok2 b2 => cases ok2 <;> rfl
    · subst h
      cases imagesRes with
      | rejected => rfl
      | response ok2 b2 => cases ok2 <;> rfl
    · subst h
      cases videosRes with
      | rejected => rfl
      | response ok2 b2 => cases ok2 <;> rfl
    · subst h
      cases imagesRes with
      | rejected => rfl
      | response ok2 b2 => cases ok2 <;> rfl

/-- Witness for C8: a rejected images fetch loads the sample data. -/
theorem c8_witness :
    fetchData FetchResult.rejected (FetchResult.response true []) =
      AppDataState.mk sampleCollectionItems sampleVideoItems (some fetchFailedMsg) :=
  (c8_fetchData_fallback FetchResult.rejected (FetchResult.response true [])).2 (Or.inl rfl)

/-! ## API response helper: C10 -/

/-- C10: `handleResponse` throws exactly when `ok` is false (equivalently,
under the fetch contract `ok = (200 ≤ status ≤ 299)`, exactly on non-2xx
statuses); on an ok response it returns the parsed body exactly when the
content-type header exists and contains `application/json`, and `undefined`
(here `none`) otherwise. -/
theorem c10_handleResponse_spec {α : Type} (response : HttpResponse α) :
    ((∃ e, handleResponse response = Except.error e) ↔ response.ok = false)
  ∧ (response.ok = decide (200 ≤ response.status ∧ response.status ≤ 299) →
      ((∃ e, handleResponse response = Except.error e) ↔
        ¬(200 ≤ response.status ∧ response.status ≤ 299)))
  ∧ (response.ok = true → ∀ ct, response.contentType = some ct →
      strContains ct "application/json" = true →
      handleResponse response = Except.ok (some response.body))
  ∧ (response.ok = true → ∀ ct, response.contentType = some ct →
      strContains ct "application/json" = false →
      handleResponse response = Except.ok none)
  ∧ (response.ok = true → response.contentType = none →
      handleResponse response = Except.ok none) := by
  have h1 : (∃ e, handleResponse response = Except.error e) ↔ response.ok = false := by
    unfold handleResponse
    cases hok : response.ok
    · simp
    · simp only [Bool.true_eq_false, iff_false]
      cases hct : response.contentType with
      | none => simp
      | some ct => by_cases hjs : strContains ct "application/json" = true <;> simp [hjs]
  refine ⟨h1, ?_, ?_, ?_, ?_⟩
  · intro hok2
    rw [h1, hok2]
    simp
  · intro hok ct hct hjs
    unfold handleResponse
    simp [hok, hct, hjs]
  · intro hok ct hct hjs
    unfold handleResponse
    simp [hok, hct, hjs]
  · intro hok hct
    unfold handleResponse
    simp [hok, hct]

/-- Witness for C10 at a concrete JSON response. -/
theorem c10_witness :
    handleResponse (HttpResponse.mk true 200 (some "application/json; charset=utf-8") (42 : Nat)) =
      Except.ok (some 42) :=
  (c10_handleResponse_spec
      (HttpResponse.mk true 200 (some "application/json; charset=utf-8") (42 : Nat))).2.2.1
    rfl "application/json; charset=utf-8" rfl (by decide)
